import Mathlib

/-!
Verification of the gz-fuel client (`src/fuel_client.rs`).

The client fetches a paginated model catalog from a remote service,
caches it in memory (and optionally on disk), and offers pure query
helpers over the cached snapshot.  External collaborators (the HTTP
transport, JSON decoding/encoding, the filesystem) are modelled as
explicit environments of functions; the client's own logic is a direct
translation of the Rust source.  Machine integers of the source
(`u32`, `usize`) only ever hold counts and sizes that are never
arithmetically combined, so they are embedded as `Nat`.
-/

namespace GzFuel

/-- One catalog entry, translated field by field from `struct FuelModel`. -/
structure FuelModel where
  created_at : String
  updated_at : String
  name : String
  owner : String
  description : String
  likes : Nat
  downloads : Nat
  filesize : Nat
  upload_date : String
  modify_date : String
  license_id : Nat
  license_name : String
  license_url : String
  license_image : String
  permission : Nat
  url_name : String
  «private» : Bool
  tags : List String
  categories : List String
deriving DecidableEq

/-- The client state, translated from `struct FuelClient`.  Paths are
opaque strings here; only the cache-store environment interprets them. -/
structure FuelClient where
  url : String
  cache_path : Option String
  models : Option (List FuelModel)
  token : Option String
deriving DecidableEq

/-- The transport and JSON-decoding collaborators used by the fetch loop:
`fetch url token` models `ehttp::fetch_async` composed with the UTF-8
conversion of the body (`none` is a transport failure), and `decode`
models `serde_json::de::from_str::<Vec<FuelModel>>` (`none` is a decode
failure). -/
structure FetchEnv where
  fetch : String → Option String → Option String
  decode : String → Option (List FuelModel)

/-- The filesystem metadata collaborator behind `last_updated`:
`modified path` models `File::open` / `metadata()` / `modified()`,
collapsed to the modification time in seconds, `none` on any failure. -/
structure StatEnv where
  modified : String → Option Nat

/-- The cache-store collaborators used when persisting:
`default_cache_path` models `dirs::cache_dir()` plus the fixed subpath,
`parent` models `Path::parent`, `create_dir_all` and `write` report
success of the corresponding `fs` calls, and `to_string_pretty` models
`serde_json::ser::to_string_pretty` applied to `self.models`. -/
structure PersistEnv where
  default_cache_path : Option String
  parent : String → Option String
  create_dir_all : String → Bool
  to_string_pretty : Option (List FuelModel) → Option String
  write : String → String → Bool

/-- The observable outcome of the pagination loop in `build_cache`:
the page numbers requested (in request order), the records emitted to
the progress sink (in emission order), and the accumulated records. -/
structure LoopOut where
  pages : List Nat
  sent : List FuelModel
  models : List FuelModel
deriving DecidableEq

/-- The observable outcome of `update_cache_with_progress`: its return
value, the client state after the call, and the `fs::write` calls
attempted (path and serialized bytes). -/
structure UpdateOut where
  result : Option (List FuelModel)
  client : FuelClient
  writes : List (String × String)
deriving DecidableEq

/-- The request URL built each iteration:
`self.url.clone() + "models" + "?page=" + &page.to_string()`. -/
def pageUrl (url : String) (page : Nat) : String :=
  url ++ "models" ++ "?page=" ++ toString page

/-- The `loop` body of `build_cache`.  `fuel` bounds the number of
iterations so that the definition is total; a run that would iterate
past `fuel` yields `none` (the Rust loop only ever exits through one of
the two `break`s, on the first transport or decode failure).  The
progress sink is modelled by the flag `progress` (whether a sender was
supplied) and the trace `sent` of records handed to it; `sendOk` tells
which deliveries would succeed, and is ignored exactly as the source
ignores the result of `progress.send(model.clone()).ok()`. -/
def build_cacheLoop (env : FetchEnv) (self : FuelClient) (progress : Bool)
    (sendOk : FuelModel → Bool) :
    Nat → Nat → List Nat → List FuelModel → List FuelModel → Option LoopOut
  | 0, _, _, _, _ => none
  | fuel + 1, page, pages, sent, models =>
    let pages := pages ++ [page]
    match env.fetch (pageUrl self.url page) self.token with
    | none => some ⟨pages, sent, models⟩
    | some res =>
      match env.decode res with
      | none => some ⟨pages, sent, models⟩
      | some fetched =>
        let sent := if progress then sent ++ fetched else sent
        build_cacheLoop env self progress sendOk fuel (page + 1) pages sent
          (models ++ fetched)

/-- Definition of `build_cache`: run the pagination loop from page 1 with empty
accumulator, then turn an empty accumulation into a failure
(`if !models.is_empty() { Some(models) } else { None }`).  The outer
`Option` is `none` only when `fuel` was insufficient. -/
def build_cache (env : FetchEnv) (self : FuelClient) (progress : Bool)
    (sendOk : FuelModel → Bool) (fuel : Nat) : Option (Option (List FuelModel)) :=
  (build_cacheLoop env self progress sendOk fuel 1 [] [] []).map fun out =>
    if out.models.isEmpty then none else some out.models

/-- The combined outcome of one loop iteration's transport and decode
stages for a given page: `none` when either stage fails. -/
def pageResult (env : FetchEnv) (self : FuelClient) (page : Nat) :
    Option (List FuelModel) :=
  (env.fetch (pageUrl self.url page) self.token).bind env.decode

/-- Definition of `update_cache_with_progress`, including the persistence block.  The
source assigns `self.models = Some(models)` first and only then attempts
the four fallible persistence steps, each `?` returning `None` while the
assignment stays in place; `writes` records the `fs::write` calls made. -/
def update_cache_with_progress (env : FetchEnv) (penv : PersistEnv)
    (self : FuelClient) (write_to_disk : Bool) (progress : Bool)
    (sendOk : FuelModel → Bool) (fuel : Nat) : Option UpdateOut :=
  (build_cache env self progress sendOk fuel).map fun res =>
    match res with
    | none => ⟨none, self, []⟩
    | some models =>
      let self := { self with models := some models }
      if write_to_disk then
        match self.cache_path.or penv.default_cache_path with
        | none => ⟨none, self, []⟩
        | some path =>
          match penv.parent path with
          | none => ⟨none, self, []⟩
          | some dir =>
            if penv.create_dir_all dir then
              match penv.to_string_pretty self.models with
              | none => ⟨none, self, []⟩
              | some bytes =>
                if penv.write path bytes then ⟨some models, self, [(path, bytes)]⟩
                else ⟨none, self, [(path, bytes)]⟩
            else ⟨none, self, []⟩
      else ⟨some models, self, []⟩

/-- Definition of `update_cache`: forwards to `update_cache_with_progress` with no
progress sender. -/
def update_cache (env : FetchEnv) (penv : PersistEnv) (self : FuelClient)
    (write_to_disk : Bool) (fuel : Nat) : Option UpdateOut :=
  update_cache_with_progress env penv self write_to_disk false (fun _ => true) fuel

/-- Definition of `last_updated`: the modification time of the cache file, `none` when
there is no cache path or any filesystem step fails. -/
def last_updated (fsenv : StatEnv) (self : FuelClient) : Option Nat :=
  self.cache_path.bind fsenv.modified

/-- Model of `SystemTime::duration_since`: `none` models the `Err` returned when
the earlier time is in fact later than `now`. -/
def duration_since (now earlier : Nat) : Option Nat :=
  if earlier ≤ now then some (now - earlier) else none

/-- Definition of `should_update_cache`: refresh is due when the cache has no
modification time; otherwise, with a threshold `d`, when the cache's age
exceeds `d` (`is_ok_and(|dt| dt > *d)`), and with no threshold never. -/
def should_update_cache (fsenv : StatEnv) (now : Nat) (self : FuelClient)
    (threshold : Option Nat) : Bool :=
  match last_updated fsenv self with
  | none => true
  | some lastUpdated =>
    match threshold with
    | some d => (duration_since now lastUpdated).elim false fun dt => decide (d < dt)
    | none => false

/-- Definition of `models_by_owner`: filter the supplied snapshot, or the held one,
by exact owner match. -/
def models_by_owner (self : FuelClient) (models : Option (List FuelModel))
    (owner : String) : Option (List FuelModel) :=
  (models.or self.models).map fun ms => ms.filter fun model => model.owner == owner

/-- Definition of `models_by_private`: filter by the `private` flag. -/
def models_by_private (self : FuelClient) (models : Option (List FuelModel))
    (priv : Bool) : Option (List FuelModel) :=
  (models.or self.models).map fun ms => ms.filter fun model => model.«private» == priv

/-- Definition of `models_by_tag`: filter by exact membership of `tag` in `tags`. -/
def models_by_tag (self : FuelClient) (models : Option (List FuelModel))
    (tag : String) : Option (List FuelModel) :=
  (models.or self.models).map fun ms => ms.filter fun model => model.tags.contains tag

/-- Itertools `unique_by(key)` (and `unique()` when `key` is the
identity): keep the first element seen for each key, tracking the set of
keys already seen. -/
def uniqueBy {α : Type} (key : α → String) : List α → List String → List α
  | [], _ => []
  | a :: l, seen =>
    if key a ∈ seen then uniqueBy key l seen
    else a :: uniqueBy key l (key a :: seen)

/-- The characters of a string lowercased one by one, modelling
`to_lowercase` (like `Char.toLower`, only the ASCII range is mapped). -/
def toLowerData (s : String) : List Char :=
  s.data.map Char.toLower

/-- Lexicographic comparison of character sequences by code point,
which on UTF-8 data coincides with Rust's byte-wise `cmp`. -/
def lexLe : List Char → List Char → Bool
  | [], _ => true
  | _ :: _, [] => false
  | a :: as, b :: bs =>
    if a.toNat < b.toNat then true
    else if b.toNat < a.toNat then false
    else lexLe as bs

/-- The comparison used by `get_owners`/`get_tags`:
`a.to_lowercase().cmp(&b.to_lowercase())`, as the non-strict relation
that drives the stable sort. -/
def lowerLe (a b : String) : Prop :=
  lexLe (toLowerData a) (toLowerData b) = true

instance : DecidableRel lowerLe := fun a b =>
  inferInstanceAs (Decidable (lexLe (toLowerData a) (toLowerData b) = true))

theorem lexLe_total (x : List Char) : ∀ y, lexLe x y = true ∨ lexLe y x = true := by
  induction x with
  | nil => intro y; left; cases y <;> rfl
  | cons a as ih =>
    intro y
    cases y with
    | nil => right; rfl
    | cons b bs =>
      rw [lexLe, lexLe]
      rcases Nat.lt_trichotomy a.toNat b.toNat with h | h | h
      · left; rw [if_pos h]
      · have h1 : ¬ a.toNat < b.toNat := by omega
        have h2 : ¬ b.toNat < a.toNat := by omega
        rw [if_neg h1, if_neg h2, if_neg h2, if_neg h1]
        exact ih bs
      · right; rw [if_pos h]

theorem lexLe_trans (x : List Char) :
    ∀ y z, lexLe x y = true → lexLe y z = true → lexLe x z = true := by
  induction x with
  | nil => intro y z _ _; cases z <;> rfl
  | cons a as ih =>
    intro y z hxy hyz
    cases y with
    | nil => rw [lexLe] at hxy; exact absurd hxy (by simp)
    | cons b bs =>
      cases z with
      | nil => rw [lexLe] at hyz; exact absurd hyz (by simp)
      | cons c cs =>
        rw [lexLe] at hxy hyz ⊢
        by_cases hab : a.toNat < b.toNat <;> by_cases hba : b.toNat < a.toNat <;>
          by_cases hbc : b.toNat < c.toNat <;> by_cases hcb : c.toNat < b.toNat <;>
          first
            | omega
            | (rw [if_pos (show a.toNat < c.toNat by omega)])
            | (rw [if_neg hab, if_neg hba] at hxy
               rw [if_neg hbc, if_neg hcb] at hyz
               rw [if_neg (show ¬ a.toNat < c.toNat by omega),
                 if_neg (show ¬ c.toNat < a.toNat by omega)]
               exact ih bs cs hxy hyz)
            | (rw [if_neg hbc, if_pos hcb] at hyz; exact absurd hyz (by simp))
            | (rw [if_neg hab, if_pos hba] at hxy; exact absurd hxy (by simp))

instance : IsTotal String lowerLe :=
  ⟨fun a b => lexLe_total (toLowerData a) (toLowerData b)⟩

instance : IsTrans String lowerLe :=
  ⟨fun a b c => lexLe_trans (toLowerData a) (toLowerData b) (toLowerData c)⟩

/-- Definition of `get_owners`: first-seen dedup by owner, project to owners, stable
sort by lowercased comparison (itertools `sorted_by` is a stable sort,
so the uniquely determined stable result is given by insertion sort on
the non-strict relation). -/
def get_owners (self : FuelClient) : Option (List String) :=
  self.models.map fun models =>
    List.insertionSort lowerLe
      ((uniqueBy (fun model => model.owner) models []).map fun model => model.owner)

/-- Definition of `get_tags`: flatten all tag lists, first-seen dedup of the strings
themselves, same stable sort. -/
def get_tags (self : FuelClient) : Option (List String) :=
  self.models.map fun models =>
    List.insertionSort lowerLe (uniqueBy id (models.flatMap fun model => model.tags) [])

/-! ### Concrete fixtures used by witnesses and counterexamples -/

/-- A record with the given name, owner, privacy flag and tags; all other
fields are defaults. -/
def mkModel (name owner : String) (priv : Bool) (tags : List String) : FuelModel :=
  { created_at := "", updated_at := "", name := name, owner := owner,
    description := "", likes := 0, downloads := 0, filesize := 0,
    upload_date := "", modify_date := "", license_id := 0, license_name := "",
    license_url := "", license_image := "", permission := 0, url_name := "",
    «private» := priv, tags := tags, categories := [] }

def mockM1 : FuelModel := mkModel "m1" "alice" false ["wood"]

def mockM2 : FuelModel := mkModel "m2" "bob" true ["metal", "wood"]

def mockM3 : FuelModel := mkModel "m3" "alice" false []

/-- A client with no snapshot loaded yet and a short base URL. -/
def mockClient : FuelClient :=
  { url := "u/", cache_path := some "c", models := none, token := none }

/-- A transport whose pages 1 and 2 decode to `[mockM1, mockM2]` and
`[mockM3]`, and whose page 3 is a transport error. -/
def mockEnv : FetchEnv :=
  { fetch := fun u _ =>
      if u = "u/models?page=1" then some "p1"
      else if u = "u/models?page=2" then some "p2"
      else none,
    decode := fun s =>
      if s = "p1" then some [mockM1, mockM2]
      else if s = "p2" then some [mockM3]
      else none }

/-- A transport that fails on every page, in particular on page 1. -/
def emptyEnv : FetchEnv :=
  { fetch := fun _ _ => none, decode := fun _ => none }

/-- A cache store where every step succeeds. -/
def goodPersist : PersistEnv :=
  { default_cache_path := some "d", parent := fun _ => some "dir",
    create_dir_all := fun _ => true, to_string_pretty := fun _ => some "J",
    write := fun _ _ => true }

/-- A cache store where the final `fs::write` fails. -/
def badWritePersist : PersistEnv :=
  { default_cache_path := some "d", parent := fun _ => some "dir",
    create_dir_all := fun _ => true, to_string_pretty := fun _ => some "J",
    write := fun _ _ => false }

/-! ### Helper lemmas about the pagination loop -/

/-- One unfolding of the loop, phrased through `pageResult`: the two
failure stages break identically, a success appends and continues. -/
theorem build_cacheLoop_succ (env : FetchEnv) (self : FuelClient)
    (progress : Bool) (sendOk : FuelModel → Bool) (fuel page : Nat)
    (pages : List Nat) (sent models : List FuelModel) :
    build_cacheLoop env self progress sendOk (fuel + 1) page pages sent models =
      match pageResult env self page with
      | none => some ⟨pages ++ [page], sent, models⟩
      | some fetched =>
        build_cacheLoop env self progress sendOk fuel (page + 1) (pages ++ [page])
          (if progress then sent ++ fetched else sent) (models ++ fetched) := by
  rw [build_cacheLoop, pageResult]
  cases hf : env.fetch (pageUrl self.url page) self.token with
  | none => rfl
  | some res =>
    cases hd : env.decode res with
    | none => rfl
    | some fetched => rfl

/-- Prepending one index to a `flatMap` over an initial segment. -/
theorem range_flatMap_succ (P : Nat → List FuelModel) (k : Nat) :
    (List.range (k + 1)).flatMap P =
      P 0 ++ (List.range k).flatMap fun i => P (i + 1) := by
  induction k with
  | zero => simp [List.range_succ]
  | succ n ih =>
    rw [List.range_succ, List.flatMap_append, ih, List.range_succ,
      List.flatMap_append]
    simp

/-- The general run of the pagination loop: if, starting from page
`start`, the next `k` pages succeed with contents `P 0, …, P (k-1)` and
page `start + k` fails, the loop requests exactly pages
`start, …, start + k`, appends the page contents to the accumulator in
page order, and stops. -/
theorem build_cacheLoop_run (env : FetchEnv) (self : FuelClient)
    (progress : Bool) (sendOk : FuelModel → Bool) (k : Nat) (P : Nat → List FuelModel) :
    ∀ (start fuel : Nat) (pages : List Nat) (sent models : List FuelModel),
    (∀ i, i < k → pageResult env self (start + i) = some (P i)) →
    pageResult env self (start + k) = none →
    k < fuel →
    build_cacheLoop env self progress sendOk fuel start pages sent models =
      some ⟨pages ++ List.range' start (k + 1),
        (if progress then sent ++ (List.range k).flatMap P else sent),
        models ++ (List.range k).flatMap P⟩ := by
  induction k generalizing P with
  | zero =>
    intro start fuel pages sent models _ hfail hfuel
    obtain ⟨f, rfl⟩ : ∃ f, fuel = f + 1 :=
      ⟨fuel - 1, by omega⟩
    rw [build_cacheLoop_succ]
    rw [show start + 0 = start from rfl] at hfail
    rw [hfail]
    simp [List.range']
  | succ n ih =>
    intro start fuel pages sent models hP hfail hfuel
    obtain ⟨f, rfl⟩ : ∃ f, fuel = f + 1 :=
      ⟨fuel - 1, by omega⟩
    rw [build_cacheLoop_succ]
    have h0 := hP 0 (Nat.succ_pos n)
    rw [show start + 0 = start from rfl] at h0
    rw [h0]
    dsimp only
    have hP1 : ∀ i, i < n → pageResult env self (start + 1 + i) = some (P (i + 1)) := by
      intro i hi
      have := hP (i + 1) (by omega)
      rwa [show start + (i + 1) = start + 1 + i by omega] at this
    have hfail1 : pageResult env self (start + 1 + n) = none := by
      rwa [show start + (n + 1) = start + 1 + n by omega] at hfail
    rw [ih (fun i => P (i + 1)) (start + 1) f (pages ++ [start])
      (if progress then sent ++ P 0 else sent) (models ++ P 0) hP1 hfail1 (by omega)]
    rw [range_flatMap_succ]
    cases progress <;>
      simp [List.range'_succ, List.append_assoc]

/-- The client state after a successful in-memory refresh: only the
`models` field changes. -/
theorem update_cache_client_models (env : FetchEnv) (penv : PersistEnv)
    (self : FuelClient) (wtd progress : Bool) (sendOk : FuelModel → Bool)
    (fuel : Nat) (ms : List FuelModel)
    (hbc : build_cache env self progress sendOk fuel = some (some ms)) :
    (update_cache_with_progress env penv self wtd progress sendOk fuel).map
      UpdateOut.client = some { self with models := some ms } := by
  rw [update_cache_with_progress, hbc]
  simp only [Option.map_some', Option.map_map]
  cases wtd with
  | false => rfl
  | true =>
    simp only [Function.comp]
    cases ({ self with models := some ms } : FuelClient).cache_path.or
        penv.default_cache_path with
    | none => rfl
    | some path =>
      dsimp only
      cases penv.parent path with
      | none => rfl
      | some dir =>
        dsimp only
        cases hc : penv.create_dir_all dir with
        | false => simp [hc]
        | true =>
          simp only [hc, if_true]
          cases penv.to_string_pretty (some ms) with
          | none => rfl
          | some bytes =>
            dsimp only
            cases hw : penv.write path bytes with
            | false => simp [hw]
            | true => simp [hw]

/-- C1. The pagination loop of `build_cache` requests pages starting at
1 and incrementing by 1 per successful page, terminates on the first
transport or decode failure, and accumulates exactly the concatenation
of the records of the successful pages, in page order and record order;
the mock instance (pages `[m1, m2]`, `[m3]`, then a transport error,
giving `[m1, m2, m3]`) is the witness below. -/
theorem build_cache_paginates (env : FetchEnv) (self : FuelClient)
    (progress : Bool) (sendOk : FuelModel → Bool) (k fuel : Nat)
    (P : Nat → List FuelModel)
    (hP : ∀ i, i < k → pageResult env self (1 + i) = some (P i))
    (hfail : pageResult env self (1 + k) = none)
    (hfuel : k < fuel) :
    build_cacheLoop env self progress sendOk fuel 1 [] [] [] =
      some ⟨List.range' 1 (k + 1),
        (if progress then (List.range k).flatMap P else []),
        (List.range k).flatMap P⟩ := by
  have h := build_cacheLoop_run env self progress sendOk k P 1 fuel [] [] []
    hP hfail hfuel
  simpa using h

/-- Witness for C1: the mock transport of the spec, two good pages then
a transport error, accumulates `[mockM1, mockM2, mockM3]` after
requesting pages 1, 2, 3. -/
theorem build_cache_paginates_witness :
    build_cacheLoop mockEnv mockClient false (fun _ => true) 10 1 [] [] [] =
      some ⟨[1, 2, 3], [], [mockM1, mockM2, mockM3]⟩ := by
  have h := build_cache_paginates mockEnv mockClient false (fun _ => true) 2 10
    (fun i => if i = 0 then [mockM1, mockM2] else [mockM3])
    (by decide) (by decide) (by decide)
  rw [h]
  decide

/-- C2. If the accumulator is empty when the pagination loop exits, the
whole refresh reports failure (`None`, with the client untouched and
nothing written); otherwise the accumulated sequence becomes the
client's held snapshot, and (without the persistence option) the call
returns it. -/
theorem update_cache_result (env : FetchEnv) (penv : PersistEnv)
    (self : FuelClient) (wtd progress : Bool) (sendOk : FuelModel → Bool)
    (fuel : Nat) (out : LoopOut)
    (hloop : build_cacheLoop env self progress sendOk fuel 1 [] [] [] = some out) :
    (out.models = [] →
      update_cache_with_progress env penv self wtd progress sendOk fuel =
        some ⟨none, self, []⟩) ∧
    (out.models ≠ [] →
      (update_cache_with_progress env penv self wtd progress sendOk fuel).map
        UpdateOut.client = some { self with models := some out.models } ∧
      (wtd = false →
        update_cache_with_progress env penv self wtd progress sendOk fuel =
          some ⟨some out.models, { self with models := some out.models }, []⟩)) := by
  constructor
  · intro hemp
    rw [update_cache_with_progress, build_cache, hloop]
    simp [hemp]
  · intro hne
    have hbc : build_cache env self progress sendOk fuel = some (some out.models) := by
      rw [build_cache, hloop]
      simp [List.isEmpty_iff, hne]
    refine ⟨update_cache_client_models env penv self wtd progress sendOk fuel
      out.models hbc, ?_⟩
    rintro rfl
    rw [update_cache_with_progress, hbc]
    rfl

/-- Witness for C2: a transport failing on page 1 makes the whole
refresh fail with the client unchanged, while the mock transport's
three records become the held snapshot and are returned. -/
theorem update_cache_result_witness :
    update_cache_with_progress emptyEnv goodPersist mockClient true false
      (fun _ => true) 10 = some ⟨none, mockClient, []⟩ ∧
    update_cache_with_progress mockEnv goodPersist mockClient false false
      (fun _ => true) 10 =
      some ⟨some [mockM1, mockM2, mockM3],
        { mockClient with models := some [mockM1, mockM2, mockM3] }, []⟩ := by
  constructor
  · exact (update_cache_result emptyEnv goodPersist mockClient true false
      (fun _ => true) 10 ⟨[1], [], []⟩ (by decide)).1 (by decide)
  · exact ((update_cache_result mockEnv goodPersist mockClient false false
      (fun _ => true) 10 ⟨[1, 2, 3], [], [mockM1, mockM2, mockM3]⟩
      (by decide)).2 (by decide)).2 rfl

/-- C10. A refresh whose fetch accumulated nothing is atomic: the call
returns `None`, the held snapshot is unchanged, and no write to the
cache file is attempted. -/
theorem failed_refresh_atomic (env : FetchEnv) (penv : PersistEnv)
    (self : FuelClient) (wtd progress : Bool) (sendOk : FuelModel → Bool)
    (fuel : Nat)
    (h : build_cache env self progress sendOk fuel = some none) :
    update_cache_with_progress env penv self wtd progress sendOk fuel =
      some ⟨none, self, []⟩ := by
  rw [update_cache_with_progress, h]
  rfl

/-- Witness for C10: the transport failing on page 1 yields an empty
accumulator, and the refresh leaves client and disk untouched. -/
theorem failed_refresh_atomic_witness :
    update_cache_with_progress emptyEnv goodPersist mockClient true false
      (fun _ => true) 10 = some ⟨none, mockClient, []⟩ ∧
    mockClient.models = none := by
  exact ⟨failed_refresh_atomic emptyEnv goodPersist mockClient true false
    (fun _ => true) 10 (by decide), rfl⟩

/-- C3. The staleness policy of `should_update_cache`: with no
obtainable modification time the answer is `true` for every threshold;
with a modification time and no threshold it is `false`; with a
modification time `lm` and threshold `t` it is `true` exactly when
`now - lm > t` (the age never exceeds a threshold when the recorded
time lies in the future, matching `duration_since` erring there). -/
theorem should_update_cache_policy (fsenv : StatEnv) (now : Nat)
    (self : FuelClient) :
    (last_updated fsenv self = none →
      ∀ t, should_update_cache fsenv now self t = true) ∧
    (∀ lm, last_updated fsenv self = some lm →
      should_update_cache fsenv now self none = false ∧
      ∀ t, should_update_cache fsenv now self (some t) = decide (now - lm > t)) := by
  constructor
  · intro h t
    rw [should_update_cache, h]
  · intro lm h
    constructor
    · rw [should_update_cache, h]
    · intro t
      rw [should_update_cache, h]
      unfold duration_since
      by_cases hle : lm ≤ now
      · simp [hle]
      · have h0 : now - lm = 0 := Nat.sub_eq_zero_of_le (le_of_not_le hle)
        simp [hle, h0]

/-- Witness for C3: a cache last modified at time 10, queried at time
100, is due with threshold 5, not due with no threshold, and a client
with no obtainable modification time is always due. -/
theorem should_update_cache_policy_witness :
    should_update_cache ⟨fun p => if p = "c" then some 10 else none⟩ 100
      mockClient (some 5) = true ∧
    should_update_cache ⟨fun p => if p = "c" then some 10 else none⟩ 100
      mockClient none = false ∧
    should_update_cache ⟨fun _ => none⟩ 100 mockClient (some 5) = true := by
  refine ⟨?_, ?_, ?_⟩
  · exact (((should_update_cache_policy ⟨fun p => if p = "c" then some 10 else none⟩
      100 mockClient).2 10 (by decide)).2 5).trans (by decide)
  · exact ((should_update_cache_policy ⟨fun p => if p = "c" then some 10 else none⟩
      100 mockClient).2 10 (by decide)).1
  · exact (should_update_cache_policy ⟨fun _ => none⟩ 100 mockClient).1
      (by decide) (some 5)

/-- C5. A persistence failure during a persisting refresh does not undo
the in-memory replacement: when the fetch succeeded with snapshot `ms`
but the call reported failure, the client still holds `ms`. -/
theorem persist_fail_keeps_models (env : FetchEnv) (penv : PersistEnv)
    (self : FuelClient) (progress : Bool) (sendOk : FuelModel → Bool)
    (fuel : Nat) (ms : List FuelModel) (u : UpdateOut)
    (hbc : build_cache env self progress sendOk fuel = some (some ms))
    (hupd : update_cache_with_progress env penv self true progress sendOk fuel =
      some u)
    (_hfail : u.result = none) :
    u.client.models = some ms := by
  have h := update_cache_client_models env penv self true progress sendOk fuel
    ms hbc
  rw [hupd] at h
  simp only [Option.map_some', Option.some_inj] at h
  rw [h]

/-- The outcome of the persisting mock refresh against a cache store
whose `fs::write` fails: reported failure, updated snapshot, one
attempted write. -/
def mockFailedUpdate : UpdateOut :=
  ⟨none, { mockClient with models := some [mockM1, mockM2, mockM3] }, [("c", "J")]⟩

/-- Witness for C5: with the mock transport and a cache store whose
write fails, the call reports failure yet the client holds the new
snapshot. -/
theorem persist_fail_keeps_models_witness :
    update_cache_with_progress mockEnv badWritePersist mockClient true false
      (fun _ => true) 10 = some mockFailedUpdate ∧
    mockFailedUpdate.result = none ∧
    mockFailedUpdate.client.models = some [mockM1, mockM2, mockM3] := by
  refine ⟨by decide, rfl, ?_⟩
  exact persist_fail_keeps_models mockEnv badWritePersist mockClient false
    (fun _ => true) 10 [mockM1, mockM2, mockM3] mockFailedUpdate
    (by decide) (by decide) rfl

/-- Counterexample to C6: at concrete inputs, the value returned after
a persistence failure (mock transport, failing write) is the same
`none` as the value returned after a fetch that got nothing (transport
error on page 1) — the return value does not distinguish the two. -/
theorem persist_fail_report_counterexample :
    (update_cache_with_progress mockEnv badWritePersist mockClient true false
      (fun _ => true) 10).map UpdateOut.result =
    (update_cache_with_progress emptyEnv badWritePersist mockClient true false
      (fun _ => true) 10).map UpdateOut.result ∧
    (update_cache_with_progress mockEnv badWritePersist mockClient true false
      (fun _ => true) 10).map UpdateOut.result = some none := by
  decide

/-- C6 (amended). A persistence failure after a successful fetch is
returned as `None` — the same value as a refresh that fetched nothing —
so the return value alone does not distinguish them; the two cases
differ only in the resulting client state: after a persistence failure
the client holds the newly fetched snapshot, after an empty fetch it is
unchanged (and nothing was written). -/
theorem persist_fail_report (env₁ env₂ : FetchEnv) (penv : PersistEnv)
    (self : FuelClient) (progress : Bool) (sendOk : FuelModel → Bool)
    (fuel : Nat) (ms : List FuelModel) (u : UpdateOut)
    (hbc₁ : build_cache env₁ self progress sendOk fuel = some (some ms))
    (hupd₁ : update_cache_with_progress env₁ penv self true progress sendOk fuel =
      some u)
    (hfail : u.result = none)
    (hbc₂ : build_cache env₂ self progress sendOk fuel = some none) :
    u.result = none ∧ u.client.models = some ms ∧
    update_cache_with_progress env₂ penv self true progress sendOk fuel =
      some ⟨none, self, []⟩ := by
  refine ⟨hfail, ?_, ?_⟩
  · have h := update_cache_client_models env₁ penv self true progress sendOk
      fuel ms hbc₁
    rw [hupd₁] at h
    simp only [Option.map_some', Option.some_inj] at h
    rw [h]
  · rw [update_cache_with_progress, hbc₂]
    rfl

/-- Witness for C6 (amended): the two concrete runs of the
counterexample, with the state difference exhibited. -/
theorem persist_fail_report_witness :
    mockFailedUpdate.result = none ∧
    mockFailedUpdate.client.models = some [mockM1, mockM2, mockM3] ∧
    update_cache_with_progress emptyEnv badWritePersist mockClient true false
      (fun _ => true) 10 = some ⟨none, mockClient, []⟩ := by
  exact persist_fail_report mockEnv emptyEnv badWritePersist mockClient false
    (fun _ => true) 10 [mockM1, mockM2, mockM3] mockFailedUpdate
    (by decide) (by decide) rfl (by decide)

/-- C7. Each filter returns exactly the records of the supplied
snapshot that satisfy its exact-match predicate, as an order-preserving
sublist containing only matching records and every matching record with
full multiplicity; the source snapshot is untouched (the embedding is a
pure function of it). -/
theorem filters_spec (self : FuelClient) (ms : List FuelModel)
    (owner tag : String) (priv : Bool) :
    (models_by_owner self (some ms) owner =
        some (ms.filter fun m => m.owner == owner) ∧
      (ms.filter fun m => m.owner == owner).Sublist ms ∧
      (∀ m ∈ ms.filter (fun m => m.owner == owner), m.owner = owner) ∧
      ∀ m : FuelModel, (ms.filter fun m => m.owner == owner).count m =
        if m.owner = owner then ms.count m else 0) ∧
    (models_by_private self (some ms) priv =
        some (ms.filter fun m => m.«private» == priv) ∧
      (ms.filter fun m => m.«private» == priv).Sublist ms ∧
      (∀ m ∈ ms.filter (fun m => m.«private» == priv), m.«private» = priv) ∧
      ∀ m : FuelModel, (ms.filter fun m => m.«private» == priv).count m =
        if m.«private» = priv then ms.count m else 0) ∧
    (models_by_tag self (some ms) tag =
        some (ms.filter fun m => m.tags.contains tag) ∧
      (ms.filter fun m => m.tags.contains tag).Sublist ms ∧
      (∀ m ∈ ms.filter (fun m => m.tags.contains tag), tag ∈ m.tags) ∧
      ∀ m : FuelModel, (ms.filter fun m => m.tags.contains tag).count m =
        if tag ∈ m.tags then ms.count m else 0) := by
  refine ⟨⟨rfl, List.filter_sublist ms, ?_, ?_⟩,
    ⟨rfl, List.filter_sublist ms, ?_, ?_⟩,
    ⟨rfl, List.filter_sublist ms, ?_, ?_⟩⟩
  · intro m hm
    simpa using (List.mem_filter.1 hm).2
  · intro m
    by_cases h : m.owner = owner
    · rw [if_pos h, List.count_filter]
      simp [h]
    · rw [if_neg h, List.count_eq_zero]
      intro hm
      exact h (by simpa using (List.mem_filter.1 hm).2)
  · intro m hm
    simpa using (List.mem_filter.1 hm).2
  · intro m
    by_cases h : m.«private» = priv
    · rw [if_pos h, List.count_filter]
      simp [h]
    · rw [if_neg h, List.count_eq_zero]
      intro hm
      exact h (by simpa using (List.mem_filter.1 hm).2)
  · intro m hm
    simpa using (List.mem_filter.1 hm).2
  · intro m
    by_cases h : tag ∈ m.tags
    · rw [if_pos h, List.count_filter]
      simpa using h
    · rw [if_neg h, List.count_eq_zero]
      intro hm
      exact h (by simpa using (List.mem_filter.1 hm).2)

/-- Witness for C7: the three filters on a concrete three-record
snapshot. -/
theorem filters_spec_witness :
    models_by_owner mockClient (some [mockM1, mockM2, mockM3]) "alice" =
      some [mockM1, mockM3] ∧
    models_by_private mockClient (some [mockM1, mockM2, mockM3]) true =
      some [mockM2] ∧
    models_by_tag mockClient (some [mockM1, mockM2, mockM3]) "wood" =
      some [mockM1, mockM2] := by
  have h := filters_spec mockClient [mockM1, mockM2, mockM3] "alice" "wood" true
  exact ⟨h.1.1.trans (by decide), h.2.1.1.trans (by decide),
    h.2.2.1.trans (by decide)⟩

/-- A client holding no snapshot at all. -/
def bareClient : FuelClient :=
  { url := "u/", cache_path := none, models := none, token := none }

/-- C8. Snapshot dispatch of the query filters: a supplied snapshot is
the one used (the client's held snapshot is irrelevant to the result);
with none supplied the held snapshot is used, exactly as if it had been
supplied; with both absent the result is `none`, and the client, a
read-only argument of the pure embedding, is unchanged. -/
theorem filters_dispatch (self : FuelClient) (ms : List FuelModel)
    (owner tag : String) (priv : Bool) :
    (∀ other : FuelClient,
      models_by_owner self (some ms) owner = models_by_owner other (some ms) owner ∧
      models_by_private self (some ms) priv =
        models_by_private other (some ms) priv ∧
      models_by_tag self (some ms) tag = models_by_tag other (some ms) tag) ∧
    (self.models = none →
      models_by_owner self none owner = none ∧
      models_by_private self none priv = none ∧
      models_by_tag self none tag = none) ∧
    (∀ cs, self.models = some cs →
      models_by_owner self none owner = models_by_owner self (some cs) owner ∧
      models_by_private self none priv = models_by_private self (some cs) priv ∧
      models_by_tag self none tag = models_by_tag self (some cs) tag) := by
  refine ⟨fun other => ⟨rfl, rfl, rfl⟩, ?_, ?_⟩
  · intro h
    refine ⟨?_, ?_, ?_⟩ <;>
      simp [models_by_owner, models_by_private, models_by_tag, h, Option.or]
  · intro cs h
    refine ⟨?_, ?_, ?_⟩ <;>
      simp [models_by_owner, models_by_private, models_by_tag, h, Option.or]

/-- Witness for C8: with no snapshot supplied and none held, every
filter answers `none`. -/
theorem filters_dispatch_witness :
    models_by_owner bareClient none "alice" = none ∧
    models_by_private bareClient none true = none ∧
    models_by_tag bareClient none "wood" = none := by
  exact (filters_dispatch bareClient [] "alice" "wood" true).2.1 rfl

/-- The loop never consults which sink deliveries would succeed. -/
theorem build_cacheLoop_sendOk_irrel (env : FetchEnv) (self : FuelClient)
    (progress : Bool) (s₁ s₂ : FuelModel → Bool) :
    ∀ (fuel page : Nat) (pages : List Nat) (sent models : List FuelModel),
    build_cacheLoop env self progress s₁ fuel page pages sent models =
      build_cacheLoop env self progress s₂ fuel page pages sent models := by
  intro fuel
  induction fuel with
  | zero => intro page pages sent models; rfl
  | succ f ih =>
    intro page pages sent models
    rw [build_cacheLoop_succ, build_cacheLoop_succ]
    cases pageResult env self page with
    | none => rfl
    | some fetched => exact ih (page + 1) (pages ++ [page]) _ (models ++ fetched)

/-- The accumulated snapshot does not depend on whether a progress sink
was supplied (nor on the page or emission traces carried so far). -/
theorem build_cacheLoop_models_irrel (env : FetchEnv) (self : FuelClient)
    (s : FuelModel → Bool) :
    ∀ (fuel page : Nat) (pages₁ pages₂ : List Nat)
      (sent₁ sent₂ models : List FuelModel),
    (build_cacheLoop env self true s fuel page pages₁ sent₁ models).map
        LoopOut.models =
      (build_cacheLoop env self false s fuel page pages₂ sent₂ models).map
        LoopOut.models := by
  intro fuel
  induction fuel with
  | zero => intro page pages₁ pages₂ sent₁ sent₂ models; rfl
  | succ f ih =>
    intro page pages₁ pages₂ sent₁ sent₂ models
    rw [build_cacheLoop_succ, build_cacheLoop_succ]
    cases pageResult env self page with
    | none => rfl
    | some fetched =>
      exact ih (page + 1) (pages₁ ++ [page]) (pages₂ ++ [page]) _ _
        (models ++ fetched)

/-- With a sink supplied, the records handed to it and the records
appended to the accumulator grow in lockstep: the loop's output extends
both by the same page contents, in the same order. -/
theorem build_cacheLoop_sent_trace (env : FetchEnv) (self : FuelClient)
    (s : FuelModel → Bool) :
    ∀ (fuel page : Nat) (pages : List Nat) (sent models : List FuelModel)
      (out : LoopOut),
    build_cacheLoop env self true s fuel page pages sent models = some out →
    ∃ L, out.sent = sent ++ L ∧ out.models = models ++ L := by
  intro fuel
  induction fuel with
  | zero => intro page pages sent models out h; exact absurd h (by simp [build_cacheLoop])
  | succ f ih =>
    intro page pages sent models out h
    rw [build_cacheLoop_succ] at h
    cases hr : pageResult env self page with
    | none =>
      rw [hr] at h
      obtain rfl := Option.some_inj.1 h.symm
      exact ⟨[], by simp⟩
    | some fetched =>
      rw [hr] at h
      simp only [if_true] at h
      obtain ⟨L, hs, hm⟩ := ih (page + 1) (pages ++ [page]) (sent ++ fetched)
        (models ++ fetched) out h
      exact ⟨fetched ++ L, by simp [hs, List.append_assoc],
        by simp [hm, List.append_assoc]⟩

/-- C9. Progress emission: whether deliveries to the sink succeed never
changes the run (the loop discards the send results); the accumulated
snapshot is identical with and without a sink; and with a sink, starting
from empty traces, the records emitted are exactly the accumulated
records, page by page in record order. -/
theorem progress_emission (env : FetchEnv) (self : FuelClient)
    (s₁ s₂ : FuelModel → Bool) (fuel page : Nat) (pages : List Nat)
    (sent models : List FuelModel) :
    build_cacheLoop env self true s₁ fuel page pages sent models =
      build_cacheLoop env self true s₂ fuel page pages sent models ∧
    (build_cacheLoop env self true s₁ fuel page pages sent models).map
        LoopOut.models =
      (build_cacheLoop env self false s₁ fuel page pages sent models).map
        LoopOut.models ∧
    ∀ out, build_cacheLoop env self true s₁ fuel page pages [] [] = some out →
      out.sent = out.models := by
  refine ⟨build_cacheLoop_sendOk_irrel env self true s₁ s₂ fuel page pages sent
    models, build_cacheLoop_models_irrel env self s₁ fuel page pages pages sent
    sent models, ?_⟩
  intro out h
  obtain ⟨L, hs, hm⟩ := build_cacheLoop_sent_trace env self s₁ fuel page pages
    [] [] out h
  rw [hs, hm]

/-- The mock run with a progress sink: all three records are emitted,
in order, and also accumulated. -/
def mockOutT : LoopOut :=
  ⟨[1, 2, 3], [mockM1, mockM2, mockM3], [mockM1, mockM2, mockM3]⟩

/-- Witness for C9: the mock transport with a sink emits exactly the
accumulated records `[mockM1, mockM2, mockM3]`. -/
theorem progress_emission_witness :
    build_cacheLoop mockEnv mockClient true (fun _ => true) 10 1 [] [] [] =
      some mockOutT ∧ mockOutT.sent = mockOutT.models := by
  refine ⟨by decide, ?_⟩
  exact (progress_emission mockEnv mockClient (fun _ => true) (fun _ => false)
    10 1 [] [] []).2.2 mockOutT (by decide)

/-- First-seen dedup by key: the keys of the result are distinct and
avoid the already-seen keys. -/
theorem uniqueBy_map_key {α : Type} (key : α → String) :
    ∀ (l : List α) (seen : List String),
    ((uniqueBy key l seen).map key).Nodup ∧
      ∀ s ∈ (uniqueBy key l seen).map key, s ∉ seen := by
  intro l
  induction l with
  | nil => intro seen; exact ⟨List.nodup_nil, by simp [uniqueBy]⟩
  | cons a l ih =>
    intro seen
    rw [uniqueBy]
    by_cases h : key a ∈ seen
    · rw [if_pos h]
      exact ih seen
    · rw [if_neg h]
      have h1 := ih (key a :: seen)
      refine ⟨List.nodup_cons.2 ⟨fun hmem => (h1.2 _ hmem) (List.mem_cons_self _ _),
        h1.1⟩, ?_⟩
      intro s hs
      rcases List.mem_cons.1 hs with rfl | hs'
      · exact h
      · exact fun hseen => (h1.2 s hs') (List.mem_cons_of_mem _ hseen)

/-- A client whose snapshot has owners `["Bob", "alice", "Alice"]`. -/
def exampleClient : FuelClient :=
  { url := "u/", cache_path := none,
    models := some [mkModel "m1" "Bob" false [], mkModel "m2" "alice" false [],
      mkModel "m3" "Alice" false []],
    token := none }

/-- Counterexample to C4: on owners `["Bob", "alice", "Alice"]` the code
returns `["alice", "Alice", "Bob"]`, not `["alice", "Bob"]` — the
first-seen dedup compares owners case-sensitively, so `"alice"` and
`"Alice"` are distinct keys and both survive. -/
theorem get_owners_example_counterexample :
    get_owners exampleClient = some ["alice", "Alice", "Bob"] ∧
    get_owners exampleClient ≠ some ["alice", "Bob"] := by
  decide

/-- C4 (amended). `get_owners` and `get_tags` return sequences with no
duplicates under exact (case-sensitive) equality, deduplicated by a
first-seen rule on that equality, sorted case-insensitively ascending;
for input owners `["Bob", "alice", "Alice"]` the output is
`["alice", "Alice", "Bob"]`, both `"alice"` and `"Alice"` retained. -/
theorem get_owners_get_tags_spec (self : FuelClient) (ms : List FuelModel)
    (h : self.models = some ms) :
    (∃ l, get_owners self = some l ∧ l.Nodup ∧ l.Sorted lowerLe) ∧
    (∃ l, get_tags self = some l ∧ l.Nodup ∧ l.Sorted lowerLe) ∧
    get_owners exampleClient = some ["alice", "Alice", "Bob"] := by
  refine ⟨?_, ?_, by decide⟩
  · refine ⟨_, by rw [get_owners, h]; rfl, ?_, ?_⟩
    · exact ((List.perm_insertionSort lowerLe _).symm).nodup
        (uniqueBy_map_key (fun model => model.owner) ms []).1
    · exact List.sorted_insertionSort lowerLe _
  · refine ⟨_, by rw [get_tags, h]; rfl, ?_, ?_⟩
    · refine ((List.perm_insertionSort lowerLe _).symm).nodup ?_
      have h1 := (uniqueBy_map_key id (ms.flatMap fun model => model.tags) []).1
      rwa [List.map_id] at h1
    · exact List.sorted_insertionSort lowerLe _

/-- Witness for C4 (amended): the owners and tags of a concrete
snapshot, with the corrected example output. -/
theorem get_owners_get_tags_spec_witness :
    get_owners exampleClient = some ["alice", "Alice", "Bob"] ∧
    get_tags { mockClient with models := some [mockM1, mockM2, mockM3] } =
      some ["metal", "wood"] := by
  refine ⟨(get_owners_get_tags_spec exampleClient
    [mkModel "m1" "Bob" false [], mkModel "m2" "alice" false [],
      mkModel "m3" "Alice" false []] rfl).2.2, by decide⟩

end GzFuel
